import Mathlib

/-!
Verification of the downloads organizer (`src/main.py`, class `DownloadsOrganizer`).

The Python program is shallowly embedded as executable Lean definitions:

* file and destination names are `String`s; `pathlib.Path.suffix` / `.stem`
  semantics are modelled on the basename (`pySuffix`, `pyStem`);
* the filesystem is a snapshot: an existence predicate `String → Bool` plus
  per-file records of what `stat`, `mkdir` and `shutil.move` would do
  (`FileCtx`);
* the unbounded `while destination.exists()` loop of `_move_file_safely` is
  modelled with a step budget (`fuel`); exhausting the budget yields `none`,
  which models the loop not having returned yet (the Python loop has no cap);
* exceptions are modelled with `Except String`: `_process_file`'s outer
  `try/except` is the wrapper from `processInner` to `_process_file`;
* the thread pool is irrelevant to the claims about counters and per-file
  outcomes; `organize` takes the listing result and the completion order
  (`as_completed` yields outcomes in an arbitrary permutation of submission
  order), and aggregation folds over that order.
-/

namespace DownloadsOrganizer

/-! ### Basename, stem and suffix (Python `pathlib` semantics)

`PurePath.suffix` is `name[i:]` where `i` is the index of the last dot,
provided `0 < i < len(name) - 1`; otherwise it is the empty string.
`PurePath.stem` is `name[:i]` under the same condition, otherwise `name`.
-/

/-- Index of the last occurrence of a dot in a character list, if any. -/
def rfindDot : List Char → Option Nat
  | [] => none
  | c :: cs =>
    match rfindDot cs with
    | some i => some (i + 1)
    | none => if c == '.' then some 0 else none

/-- The split position used by `PurePath.suffix` and `.stem`: the last dot,
provided it is neither the leading character nor the final character. -/
def splitIdx (n : String) : Option Nat :=
  match rfindDot n.data with
  | some i => if 0 < i ∧ i + 1 < n.data.length then some i else none
  | none => none

/-- Python `Path(name).suffix` on a basename. -/
def pySuffix (n : String) : String :=
  match splitIdx n with
  | some i => ⟨n.data.drop i⟩
  | none => ""

/-- Python `Path(name).stem` on a basename. -/
def pyStem (n : String) : String :=
  match splitIdx n with
  | some i => ⟨n.data.take i⟩
  | none => n

/-- Python `str.lower()`, restricted to the ASCII case mapping used by the
extension strings of this program. -/
def pyLower (s : String) : String := ⟨s.data.map Char.toLower⟩

/-- Python `name.startswith(c)` for a one-character pattern. -/
def pyStartsWith (n : String) (c : Char) : Bool :=
  match n.data with
  | [] => false
  | a :: _ => a == c

/-! ### The category table (`self.extensions` in `__init__`)

The Python value is a `dict` of `set`s.  A `dict` iterates in insertion
order, which is the source order below; a `set` is used only for membership,
modelled by list membership. -/

def imagesExts : List String :=
  [".jpg", ".jpeg", ".png", ".gif", ".svg", ".webp", ".bmp",
   ".tiff", ".ico", ".heic", ".raw", ".cr2", ".nef"]

def documentsExts : List String :=
  [".pdf", ".doc", ".docx", ".txt", ".rtf", ".odt", ".pages",
   ".xlsx", ".xls", ".csv", ".pptx", ".ppt", ".odp", ".keynote"]

def videosExts : List String :=
  [".mp4", ".avi", ".mkv", ".mov", ".wmv", ".flv", ".webm",
   ".m4v", ".3gp", ".mpg", ".mpeg", ".ogv"]

def audioExts : List String :=
  [".mp3", ".wav", ".flac", ".aac", ".ogg", ".wma", ".m4a",
   ".opus", ".aiff", ".alac"]

def archivesExts : List String :=
  [".zip", ".rar", ".7z", ".tar", ".gz", ".tar.gz", ".tar.bz2",
   ".bz2", ".xz", ".tar.xz", ".dmg", ".pkg", ".deb", ".rpm"]

def codeExts : List String :=
  [".py", ".js", ".html", ".css", ".json", ".xml", ".yml", ".yaml",
   ".java", ".cpp", ".c", ".h", ".php", ".rb", ".go", ".rs", ".swift"]

def executablesExts : List String :=
  [".exe", ".msi", ".app", ".deb", ".rpm", ".dmg", ".pkg",
   ".run", ".appimage", ".flatpak", ".snap"]

def fontsExts : List String :=
  [".ttf", ".otf", ".woff", ".woff2", ".eot"]

def ebooksExts : List String :=
  [".epub", ".mobi", ".azw", ".azw3", ".fb2", ".lit"]

def cadExts : List String :=
  [".dwg", ".dxf", ".step", ".iges", ".stl", ".obj", ".blend"]

/-- `self.extensions`, as the ordered association list the `dict` iterates. -/
def extensions : List (String × List String) :=
  [("images", imagesExts), ("documents", documentsExts), ("videos", videosExts),
   ("audio", audioExts), ("archives", archivesExts), ("code", codeExts),
   ("executables", executablesExts), ("fonts", fontsExts), ("ebooks", ebooksExts),
   ("cad", cadExts)]

/-- The extension the classifier looks up: `file_path.suffix.lower()`. -/
def lookupExt (name : String) : String := pyLower (pySuffix name)

/-- `_get_file_category`: iterate the table in order, return the first
category whose extension set contains the lowercased suffix, else `None`. -/
def _get_file_category (name : String) : Option String :=
  (extensions.find? (fun ce => ce.2.contains (lookupExt name))).map Prod.fst

/-! ### Destination resolution (`_move_file_safely`, lines 135-148) -/

/-- A destination path: the category folder (parent) and the basename. -/
structure FsPath where
  parent : String
  name : String

/-- The full path string of a destination, as `parent / name`. -/
def fullPath (d : FsPath) : String := d.parent ++ "/" ++ d.name

/-- `f"{stem}_{counter}{suffix}"`. -/
def newName (stem sfx : String) (k : Nat) : String :=
  stem ++ "_" ++ toString k ++ sfx

/-- The `counter`-th collision candidate basename for an original basename. -/
def candName (n : String) (k : Nat) : String :=
  newName (pyStem n) (pySuffix n) k

/-- The `counter`-th collision candidate full path, in the same parent. -/
def candidate (d : FsPath) (k : Nat) : String :=
  d.parent ++ "/" ++ candName d.name k

/-- The `while destination.exists()` loop: starting from `counter`, build
`"{stem}_{counter}{suffix}"` in `parent`, increment the counter while the
candidate exists.  `fuel` bounds the modelled steps; `none` means the loop
has not returned within `fuel` iterations (the Python loop has no cap). -/
def resolveLoop (ex : String → Bool) (parent stem sfx : String) :
    Nat → Nat → Option String
  | _, 0 => none
  | counter, fuel + 1 =>
    if ex (parent ++ "/" ++ newName stem sfx counter) then
      resolveLoop ex parent stem sfx (counter + 1) fuel
    else some (parent ++ "/" ++ newName stem sfx counter)

/-- Destination resolution: if the desired path does not exist return it
unchanged, otherwise run the collision loop from `counter = 1` with the stem
and suffix taken from the original destination. -/
def resolveDest (ex : String → Bool) (d : FsPath) (fuel : Nat) : Option String :=
  if ex (fullPath d) then resolveLoop ex d.parent (pyStem d.name) (pySuffix d.name) 1 fuel
  else some (fullPath d)

/-- `_move_file_safely`: resolve the destination, then `shutil.move`.  An
`OSError`/`shutil.Error` from the move (`mv = .error msg`) is caught, logged
and turned into `False`; the message does not reach the return value.
`none` models the collision loop not having returned. -/
def _move_file_safely (ex : String → Bool) (mv : Except String Unit)
    (d : FsPath) (fuel : Nat) : Option Bool :=
  match resolveDest ex d fuel with
  | none => none
  | some _final =>
    match mv with
    | .ok _ => some true
    | .error _ => some false

/-! ### Per-file task (`_process_file`, lines 155-199) -/

/-- The status tag of the `(status, file_name, error_message)` triple. -/
inductive Status where
  | moved
  | skipped
  | error
deriving DecidableEq, Repr

/-- The triple `_process_file` returns. -/
abbrev Outcome := Status × String × Option String

/-- One file as submitted to the pool, together with the snapshot of what
the filesystem would answer while this file is processed. -/
structure FileCtx where
  /-- `file_path.name`. -/
  name : String
  /-- `file_path.is_file()`. -/
  isFile : Bool
  /-- `file_path.stat().st_size`; `none` models the `OSError` branch. -/
  statSize : Option Nat
  /-- `some msg` models `folder_path.mkdir` raising `OSError(msg)`. -/
  mkdirFail : Option String
  /-- `Path.exists()` during destination resolution. -/
  ex : String → Bool
  /-- The result of `shutil.move`: `ok` or an `OSError`'s message. -/
  mv : Except String Unit
  /-- Step budget for the collision loop (modelling artifact). -/
  fuel : Nat

/-- `name.startswith('.') or name.startswith('~')`. -/
def hiddenName (n : String) : Bool :=
  pyStartsWith n '.' || pyStartsWith n '~'

/-- The in-progress download markers. -/
def inProgressExts : List String := [".crdownload", ".part", ".tmp"]

/-- `file_path.suffix.lower() in {'.crdownload', '.part', '.tmp'}`. -/
def inProgressExt (n : String) : Bool :=
  inProgressExts.contains (pyLower (pySuffix n))

/-- `10 * 1024 * 1024 * 1024` bytes. -/
def maxFileSize : Nat := 10 * 1024 * 1024 * 1024

/-- The guarded size check: `True` only when `stat` succeeded and reported
more than 10 GiB; a failed `stat` (`none`) is tolerated silently. -/
def sizeTooBig (c : FileCtx) : Bool :=
  match c.statSize with
  | some sz => decide (sz > maxFileSize)
  | none => false

/-- The body of `_process_file`'s `try` block.  `some (.error msg)` models an
uncaught-in-the-body exception (the `mkdir` `OSError` re-raised by
`_create_category_folder`); `none` models a non-returning collision loop. -/
def processInner (c : FileCtx) : Option (Except String Outcome) :=
  if c.isFile = false then some (.ok (.skipped, c.name, some "Not a regular file"))
  else if hiddenName c.name then some (.ok (.skipped, c.name, some "Hidden or temporary file"))
  else if inProgressExt c.name then some (.ok (.skipped, c.name, some "File currently downloading"))
  else if sizeTooBig c then some (.ok (.skipped, c.name, some "File too large (>10GB)"))
  else
    match _get_file_category c.name with
    | none => some (.ok (.skipped, c.name, some "Unknown file type"))
    | some cat =>
      match c.mkdirFail with
      | some msg => some (.error msg)
      | none =>
        match _move_file_safely c.ex c.mv ⟨cat, c.name⟩ c.fuel with
        | none => none
        | some true => some (.ok (.moved, c.name, none))
        | some false => some (.ok (.error, c.name, some "Move operation failed"))

/-- `_process_file`: the `try` body wrapped by `except Exception as e:
return 'error', file_path.name, str(e)`. -/
def _process_file (c : FileCtx) : Option Outcome :=
  match processInner c with
  | none => none
  | some (.ok t) => some t
  | some (.error e) => some (.error, c.name, some e)

/-! ### Aggregation and the run (`organize`, lines 201-260) -/

/-- `self.results` restricted to what the run report carries: the moved
`dict` is modelled as the ordered list of `(category, filename)` appends,
and the `stats` counters are explicit fields. -/
structure RunResults where
  moved : List (Option String × String)
  skipped : List (String × Option String)
  errors : List (String × Option String)
  movedCount : Nat
  skippedCount : Nat
  errorsCount : Nat
  totalFiles : Nat
deriving DecidableEq, Repr

/-- The empty `results` (all `Counter` entries default to `0`). -/
def initResults : RunResults := ⟨[], [], [], 0, 0, 0, 0⟩

/-- One iteration of the collection loop: note the category recorded for a
moved file is re-derived by a second `_get_file_category` call on the
original path. -/
def collectOne (c : FileCtx) (t : Outcome) (r : RunResults) : RunResults :=
  match t with
  | (.moved, fname, _) =>
    { r with moved := r.moved ++ [(_get_file_category c.name, fname)],
             movedCount := r.movedCount + 1 }
  | (.skipped, fname, msg) =>
    { r with skipped := r.skipped ++ [(fname, msg)],
             skippedCount := r.skippedCount + 1 }
  | (.error, fname, msg) =>
    { r with errors := r.errors ++ [(fname, msg)],
             errorsCount := r.errorsCount + 1 }

/-- Fold the collection loop over the files in completion order.  `none`
propagates a file whose collision loop never returned. -/
def aggregate : List FileCtx → RunResults → Option RunResults
  | [], r => some r
  | c :: cs, r =>
    match _process_file c with
    | none => none
    | some t => aggregate cs (collectOne c t r)

/-- What `organize` returns: the `{'error': ...}` dict, the
`{'message': 'No files found to organize'}` dict, or the populated
`self.results`. -/
inductive OrganizeResult where
  | fatal (msg : String)
  | nothingToDo
  | done (r : RunResults)
deriving DecidableEq, Repr

/-- `organize`: `listing` is the outcome of
`[f for f in self.downloads_path.iterdir() if f.is_file()]` (an `OSError`
aborts the run), `completed` is the order in which `as_completed` yields the
futures.  `total_files` is set from the listing length at the end. -/
def organize (listing : Except String (List FileCtx))
    (completed : List FileCtx) : Option OrganizeResult :=
  match listing with
  | .error e => some (.fatal ("Cannot access downloads folder: " ++ e))
  | .ok [] => some .nothingToDo
  | .ok files =>
    match aggregate completed initResults with
    | none => none
    | some r => some (.done { r with totalFiles := files.length })

/-- The destination `_process_file` hands to `_move_file_safely`:
`category_folder / file_path.name` (with `""` as a dummy parent when the
classifier found no category and the mover is never reached). -/
def destOf (c : FileCtx) : FsPath := ⟨(_get_file_category c.name).getD "", c.name⟩

/-! ### Concrete inputs used to instantiate the theorems -/

/-- A snapshot in which the original destination and the first candidate
both exist, so the collision loop must reach counter 2. -/
def exW : String → Bool :=
  fun s => s == "images/photo.jpg" || s == "images/photo_1.jpg"

def destW : FsPath := ⟨"images", "photo.jpg"⟩

/-- An ordinary image file in an empty destination folder. -/
def ctxPhoto : FileCtx := ⟨"photo.jpg", true, some 0, none, fun _ => false, .ok (), 1⟩

/-- A hidden file. -/
def ctxHidden : FileCtx := ⟨".hidden", true, some 0, none, fun _ => false, .ok (), 1⟩

/-- A directory entry (fails the regular-file check). -/
def ctxNotFile : FileCtx := ⟨"somedir", false, none, none, fun _ => false, .ok (), 1⟩

/-- A temporary-named file whose extension is also unknown to the table. -/
def hiddenUnknownCtx : FileCtx :=
  ⟨"~notes.xyz", true, some 0, none, fun _ => false, .ok (), 1⟩

/-- A file whose `shutil.move` fails with a permission error. -/
def moveFailCtx : FileCtx :=
  ⟨"report.pdf", true, some 0, none, fun _ => false, .error "Permission denied", 1⟩

/-- A snapshot in which the desired destination of `photo.jpg` exists. -/
def exCollide : String → Bool := fun s => s == "images/photo.jpg"

/-- A file that is moved under a collision-suffixed name. -/
def ctxCollide : FileCtx := ⟨"photo.jpg", true, some 0, none, exCollide, .ok (), 1⟩

def runFiles : List FileCtx := [ctxPhoto, ctxHidden]

/-- The report `organize` produces on `runFiles`. -/
def runReport : RunResults :=
  ⟨[(some "images", "photo.jpg")], [(".hidden", some "Hidden or temporary file")],
   [], 1, 1, 0, 2⟩

/-! ### Lemmas about the collision loop -/

/-- Whatever the loop returns was checked not to exist, and is one of the
numbered candidates in the fuel window. -/
theorem resolveLoop_some_spec (ex : String → Bool) (p s t : String) :
    ∀ (fuel counter : Nat) (r : String),
      resolveLoop ex p s t counter fuel = some r →
      ex r = false ∧
        ∃ j, counter ≤ j ∧ j < counter + fuel ∧ r = p ++ "/" ++ newName s t j := by
  intro fuel
  induction fuel with
  | zero => intro counter r h; simp [resolveLoop] at h
  | succ f ih =>
    intro counter r h
    simp only [resolveLoop] at h
    cases hex : ex (p ++ "/" ++ newName s t counter) with
    | true =>
      rw [hex] at h
      simp only [if_true] at h
      obtain ⟨h1, j, hj1, hj2, hj3⟩ := ih (counter + 1) r h
      exact ⟨h1, j, by omega, by omega, hj3⟩
    | false =>
      rw [hex] at h
      simp only [Bool.false_eq_true, if_false, Option.some.injEq] at h
      subst h
      exact ⟨hex, counter, Nat.le_refl _, by omega, rfl⟩

/-- If some candidate in the fuel window does not exist, the loop returns. -/
theorem resolveLoop_isSome (ex : String → Bool) (p s t : String) :
    ∀ (fuel counter : Nat),
      (∃ j, counter ≤ j ∧ j < counter + fuel ∧
        ex (p ++ "/" ++ newName s t j) = false) →
      (resolveLoop ex p s t counter fuel).isSome = true := by
  intro fuel
  induction fuel with
  | zero => intro counter h; obtain ⟨j, h1, h2, _⟩ := h; omega
  | succ f ih =>
    intro counter h
    obtain ⟨j, hj1, hj2, hj3⟩ := h
    simp only [resolveLoop]
    cases hex : ex (p ++ "/" ++ newName s t counter) with
    | false => simp
    | true =>
      simp only [if_true]
      apply ih
      refine ⟨j, ?_, by omega, hj3⟩
      rcases Nat.eq_or_lt_of_le hj1 with heq | hlt
      · subst heq
        rw [hex] at hj3
        simp at hj3
      · omega

/-- The loop returns the first free candidate at or after its counter. -/
theorem resolveLoop_finds (ex : String → Bool) (p s t : String) :
    ∀ (n fuel counter : Nat), n < fuel →
      ex (p ++ "/" ++ newName s t (counter + n)) = false →
      (∀ j, counter ≤ j → j < counter + n → ex (p ++ "/" ++ newName s t j) = true) →
      resolveLoop ex p s t counter fuel = some (p ++ "/" ++ newName s t (counter + n)) := by
  intro n
  induction n with
  | zero =>
    intro fuel counter hf hfree _
    cases fuel with
    | zero => omega
    | succ f =>
      rw [Nat.add_zero] at hfree
      simp only [resolveLoop]
      rw [hfree]
      simp
  | succ m ih =>
    intro fuel counter hf hfree hmin
    cases fuel with
    | zero => omega
    | succ f =>
      have hc : ex (p ++ "/" ++ newName s t counter) = true :=
        hmin counter (Nat.le_refl _) (by omega)
      simp only [resolveLoop]
      rw [hc]
      simp only [if_true]
      have harith : counter + (m + 1) = counter + 1 + m := by omega
      rw [harith] at hfree ⊢
      exact ih f (counter + 1) (by omega) hfree
        (fun j hj1 hj2 => hmin j (by omega) (by omega))

/-- If some candidate numbered `1..fuel` does not exist, `resolveDest`
returns a path. -/
theorem resolveDest_isSome (ex : String → Bool) (d : FsPath) (fuel : Nat)
    (h : ∃ k, 1 ≤ k ∧ k ≤ fuel ∧ ex (candidate d k) = false) :
    (resolveDest ex d fuel).isSome = true := by
  obtain ⟨k, hk1, hk2, hk3⟩ := h
  unfold resolveDest
  cases hex : ex (fullPath d) with
  | false => simp
  | true =>
    simp only [if_true]
    exact resolveLoop_isSome ex d.parent (pyStem d.name) (pySuffix d.name) fuel 1
      ⟨k, hk1, by omega, hk3⟩

/-- A path returned by `resolveDest` does not exist in the snapshot. -/
theorem resolveDest_some_free (ex : String → Bool) (d : FsPath) (fuel : Nat)
    (r : String) (h : resolveDest ex d fuel = some r) : ex r = false := by
  unfold resolveDest at h
  cases hex : ex (fullPath d) with
  | false =>
    rw [hex] at h
    simp only [Bool.false_eq_true, if_false, Option.some.injEq] at h
    subst h
    exact hex
  | true =>
    rw [hex] at h
    simp only [if_true] at h
    exact (resolveLoop_some_spec ex d.parent (pyStem d.name) (pySuffix d.name)
      fuel 1 r h).1

/-- C1: if the desired destination does not exist the resolver returns it
unchanged; otherwise it returns the candidate `"{stem}_{counter}{suffix}"`
in the same parent directory for the smallest counter `k ≥ 1` whose
candidate does not exist, and every returned path is free in the snapshot,
so no existing destination is overwritten. -/
theorem destination_resolution_correct (ex : String → Bool) (d : FsPath)
    (k fuel : Nat) (hk : 1 ≤ k) (hfree : ex (candidate d k) = false)
    (hmin : ∀ j, 1 ≤ j → j < k → ex (candidate d j) = true)
    (hfuel : k ≤ fuel) :
    (ex (fullPath d) = false → resolveDest ex d fuel = some (fullPath d)) ∧
    (ex (fullPath d) = true → resolveDest ex d fuel = some (candidate d k)) ∧
    (∀ r, resolveDest ex d fuel = some r → ex r = false) := by
  refine ⟨?_, ?_, ?_⟩
  · intro h
    unfold resolveDest
    rw [h]
    simp
  · intro h
    unfold resolveDest
    rw [h]
    simp only [if_true]
    have heq : 1 + (k - 1) = k := by omega
    have hmain := resolveLoop_finds ex d.parent (pyStem d.name) (pySuffix d.name)
      (k - 1) fuel 1 (by omega)
      (by rw [heq]; exact hfree)
      (fun j hj1 hj2 => hmin j hj1 (by omega))
    rw [heq] at hmain
    exact hmain
  · intro r h
    exact resolveDest_some_free ex d fuel r h

/-- Closed instance of C1: with `photo.jpg` and `photo_1.jpg` both present,
resolution returns the second candidate, which is free. -/
theorem destination_resolution_correct_witness :
    resolveDest exW destW 2 = some (candidate destW 2) ∧
    exW (candidate destW 2) = false := by
  have h := destination_resolution_correct exW destW 2 2 (by decide) (by decide)
    (fun j hj1 hj2 => by
      have hj : j = 1 := by omega
      subst hj
      decide)
    (by decide)
  exact ⟨h.2.1 (by decide), by decide⟩

/-- C9: the collision loop terminates whenever some counter `k ≥ 1` yields a
free candidate — a budget of `k` steps suffices from counter 1 — and the
returned path is a numbered candidate with no a-priori bound on the counter
(there is no iteration cap and no error outcome in the loop itself). -/
theorem resolver_termination (ex : String → Bool) (d : FsPath) (k : Nat)
    (hk : 1 ≤ k) (hfree : ex (candidate d k) = false) :
    (resolveDest ex d k).isSome = true ∧
    (ex (fullPath d) = true →
      ∃ j, 1 ≤ j ∧ j ≤ k ∧ resolveDest ex d k = some (candidate d j) ∧
        ex (candidate d j) = false) := by
  have hs := resolveDest_isSome ex d k ⟨k, hk, Nat.le_refl k, hfree⟩
  refine ⟨hs, ?_⟩
  intro h
  obtain ⟨r, hr⟩ := Option.isSome_iff_exists.mp hs
  have hr2 : resolveLoop ex d.parent (pyStem d.name) (pySuffix d.name) 1 k = some r := by
    have hcopy := hr
    unfold resolveDest at hcopy
    rw [h] at hcopy
    simpa using hcopy
  obtain ⟨hfr, j, hj1, hj2, hj3⟩ :=
    resolveLoop_some_spec ex d.parent (pyStem d.name) (pySuffix d.name) k 1 r hr2
  refine ⟨j, hj1, by omega, ?_, ?_⟩
  · rw [hr, hj3]
    rfl
  · show ex (d.parent ++ "/" ++ newName (pyStem d.name) (pySuffix d.name) j) = false
    rw [← hj3]
    exact hfr

/-- Closed instance of C9: the loop terminates on the colliding snapshot. -/
theorem resolver_termination_witness : (resolveDest exW destW 2).isSome = true :=
  (resolver_termination exW destW 2 (by decide) (by decide)).1

/-! ### Lemmas about first-match lookup -/

/-- `find?` returns a satisfying element preceded only by non-satisfying
ones. -/
theorem find?_eq_some_split {α : Type} (p : α → Bool) :
    ∀ (l : List α) (x : α), l.find? p = some x →
      p x = true ∧ ∃ l₁ l₂, l = l₁ ++ x :: l₂ ∧ ∀ b ∈ l₁, p b = false := by
  intro l
  induction l with
  | nil => intro x h; simp [List.find?] at h
  | cons a tl ih =>
    intro x h
    cases hpa : p a with
    | true =>
      have hax : a = x := by simpa [List.find?, hpa] using h
      subst hax
      exact ⟨hpa, [], tl, rfl, by simp⟩
    | false =>
      have h2 : tl.find? p = some x := by simpa [List.find?, hpa] using h
      obtain ⟨hx, l₁, l₂, htl, hall⟩ := ih x h2
      refine ⟨hx, a :: l₁, l₂, ?_, ?_⟩
      · rw [htl]
        rfl
      · intro b hb
        rcases List.mem_cons.mp hb with hba | hbl
        · subst hba
          exact hpa
        · exact hall b hbl

/-- C4: the classifier is a pure deterministic function of the lowercased
suffix and the fixed table; it returns the first category in table order
whose extension set contains the lookup extension, `none` when no set does;
in particular the duplicated extensions `.deb`, `.rpm`, `.dmg`, `.pkg`
resolve to `archives`, the earlier of the two categories listing them. -/
theorem classifier_first_match (name : String) :
    (∀ n2, lookupExt n2 = lookupExt name →
      _get_file_category n2 = _get_file_category name) ∧
    ((∀ ce ∈ extensions, ce.2.contains (lookupExt name) = false) →
      _get_file_category name = none) ∧
    (∀ cat, _get_file_category name = some cat →
      ∃ exts t₁ t₂, extensions = t₁ ++ (cat, exts) :: t₂ ∧
        exts.contains (lookupExt name) = true ∧
        ∀ ce ∈ t₁, ce.2.contains (lookupExt name) = false) ∧
    (_get_file_category "x.deb" = some "archives" ∧
     _get_file_category "x.rpm" = some "archives" ∧
     _get_file_category "x.dmg" = some "archives" ∧
     _get_file_category "x.pkg" = some "archives" ∧
     archivesExts.contains ".deb" = true ∧ executablesExts.contains ".deb" = true ∧
     archivesExts.contains ".rpm" = true ∧ executablesExts.contains ".rpm" = true ∧
     archivesExts.contains ".dmg" = true ∧ executablesExts.contains ".dmg" = true ∧
     archivesExts.contains ".pkg" = true ∧ executablesExts.contains ".pkg" = true) := by
  refine ⟨?_, ?_, ?_, ?_⟩
  · intro n2 h
    unfold _get_file_category
    rw [h]
  · intro hall
    unfold _get_file_category
    have hnone : extensions.find? (fun ce => ce.2.contains (lookupExt name)) = none := by
      apply List.find?_eq_none.mpr
      intro ce hce
      rw [hall ce hce]
      simp
    rw [hnone]
    rfl
  · intro cat hcat
    unfold _get_file_category at hcat
    cases hf : extensions.find? (fun ce => ce.2.contains (lookupExt name)) with
    | none => rw [hf] at hcat; simp at hcat
    | some ce =>
      rw [hf] at hcat
      simp at hcat
      obtain ⟨hp, l₁, l₂, hsplit, hall⟩ :=
        find?_eq_some_split (fun ce => ce.2.contains (lookupExt name)) extensions ce hf
      obtain ⟨c1, exts⟩ := ce
      subst hcat
      exact ⟨exts, l₁, l₂, hsplit, hp, hall⟩
  · exact ⟨by decide, by decide, by decide, by decide, by decide, by decide,
      by decide, by decide, by decide, by decide, by decide, by decide⟩

/-- Closed instance of C4: an unknown extension classifies to `none`, and a
duplicated extension resolves to the earlier table entry. -/
theorem classifier_first_match_witness :
    _get_file_category "x.xyz" = none ∧
    _get_file_category "setup.deb" = some "archives" := by
  constructor
  · exact (classifier_first_match "x.xyz").2.1 (by decide)
  · exact (classifier_first_match "setup.deb").1 "x.deb" (by decide) ▸
      (classifier_first_match "x.deb").2.2.2.1

/-- C5 fails on the code: classification uses only the final suffix
(`Path.suffix`), so for `archive.tar.gz` the lookup extension is `".gz"`,
not the multi-part table entry `".tar.gz"`; the file lands in `archives`
only because `".gz"` is separately listed there, and no lookup extension
ever equals a multi-part entry such as `".tar.gz"`. -/
theorem multipart_extension_unreachable :
    archivesExts.contains ".tar.gz" = true ∧
    lookupExt "archive.tar.gz" = ".gz" ∧
    lookupExt "archive.tar.gz" ≠ ".tar.gz" ∧
    archivesExts.contains ".gz" = true ∧
    _get_file_category "archive.tar.gz" = some "archives" := by
  refine ⟨by decide, by decide, by decide, by decide, by decide⟩

/-- C3 fails as stated: a file may have an unknown extension yet be skipped
by an earlier check.  `~notes.xyz` has the unknown extension `.xyz`, but the
hidden/temporary check fires first, so the reason is not
`"Unknown file type"`. -/
theorem eligibility_unknown_ext_counterexample :
    _get_file_category "~notes.xyz" = none ∧
    _process_file hiddenUnknownCtx =
      some (.skipped, "~notes.xyz", some "Hidden or temporary file") ∧
    _process_file hiddenUnknownCtx ≠
      some (.skipped, "~notes.xyz", some "Unknown file type") := by
  refine ⟨by decide, by decide, by decide⟩

/-- C3 (amended): the checks run in the fixed order 1-6 with first match
winning — not a regular file, hidden/temporary basename, in-progress
extension, oversize (a failed `stat` is tolerated silently and processing
continues), unknown category, and only otherwise the move.  Every hidden
file is skipped and never moved, and every file that passes checks 1-4 and
has an unknown extension is skipped with reason `"Unknown file type"`. -/
theorem eligibility_pipeline_order (c : FileCtx) :
    (c.isFile = false →
      _process_file c = some (.skipped, c.name, some "Not a regular file")) ∧
    (c.isFile = true → hiddenName c.name = true →
      _process_file c = some (.skipped, c.name, some "Hidden or temporary file")) ∧
    (c.isFile = true → hiddenName c.name = false → inProgressExt c.name = true →
      _process_file c = some (.skipped, c.name, some "File currently downloading")) ∧
    (c.isFile = true → hiddenName c.name = false → inProgressExt c.name = false →
      sizeTooBig c = true →
      _process_file c = some (.skipped, c.name, some "File too large (>10GB)")) ∧
    (c.statSize = none → sizeTooBig c = false) ∧
    (c.isFile = true → hiddenName c.name = false → inProgressExt c.name = false →
      sizeTooBig c = false → _get_file_category c.name = none →
      _process_file c = some (.skipped, c.name, some "Unknown file type")) ∧
    (hiddenName c.name = true →
      ∀ t, _process_file c = some t → t.1 ≠ Status.moved) := by
  refine ⟨?_, ?_, ?_, ?_, ?_, ?_, ?_⟩
  · intro h1
    simp [_process_file, processInner, h1]
  · intro h1 h2
    simp [_process_file, processInner, h1, h2]
  · intro h1 h2 h3
    simp [_process_file, processInner, h1, h2, h3]
  · intro h1 h2 h3 h4
    simp [_process_file, processInner, h1, h2, h3, h4]
  · intro h1
    simp [sizeTooBig, h1]
  · intro h1 h2 h3 h4 h5
    simp [_process_file, processInner, h1, h2, h3, h4, h5]
  · intro hh t ht
    cases hf : c.isFile with
    | false =>
      simp [_process_file, processInner, hf] at ht
      rw [← ht]
      simp
    | true =>
      simp [_process_file, processInner, hf, hh] at ht
      rw [← ht]
      simp

/-- Closed instance of C3: the first two checks fire on concrete inputs. -/
theorem eligibility_pipeline_order_witness :
    _process_file ctxHidden =
      some (.skipped, ".hidden", some "Hidden or temporary file") ∧
    _process_file ctxNotFile =
      some (.skipped, "somedir", some "Not a regular file") := by
  exact ⟨(eligibility_pipeline_order ctxHidden).2.1 rfl (by decide),
    (eligibility_pipeline_order ctxNotFile).1 rfl⟩

/-- C6: per-file evaluation is total.  Under the precondition that the
collision loop can terminate (some candidate within the step budget is
free), `_process_file` yields exactly one outcome carrying the file's
basename, and an exception thrown inside the body (`processInner` ending in
`.error`, e.g. the folder-creation failure) is caught and converted to an
`Error` outcome for that file instead of propagating. -/
theorem per_file_totality (c : FileCtx)
    (H : ∃ k, 1 ≤ k ∧ k ≤ c.fuel ∧ c.ex (candidate (destOf c) k) = false) :
    (∃ t : Outcome, _process_file c = some t ∧ t.2.1 = c.name) ∧
    (∀ m, processInner c = some (.error m) →
      _process_file c = some (.error, c.name, some m)) := by
  constructor
  · cases hf : c.isFile with
    | false =>
      exact ⟨(.skipped, c.name, some "Not a regular file"),
        by simp [_process_file, processInner, hf], rfl⟩
    | true =>
      cases hh : hiddenName c.name with
      | true =>
        exact ⟨(.skipped, c.name, some "Hidden or temporary file"),
          by simp [_process_file, processInner, hf, hh], rfl⟩
      | false =>
        cases hi : inProgressExt c.name with
        | true =>
          exact ⟨(.skipped, c.name, some "File currently downloading"),
            by simp [_process_file, processInner, hf, hh, hi], rfl⟩
        | false =>
          cases hs : sizeTooBig c with
          | true =>
            exact ⟨(.skipped, c.name, some "File too large (>10GB)"),
              by simp [_process_file, processInner, hf, hh, hi, hs], rfl⟩
          | false =>
            cases hcat : _get_file_category c.name with
            | none =>
              exact ⟨(.skipped, c.name, some "Unknown file type"),
                by simp [_process_file, processInner, hf, hh, hi, hs, hcat], rfl⟩
            | some cat =>
              cases hmk : c.mkdirFail with
              | some msg =>
                exact ⟨(.error, c.name, some msg),
                  by simp [_process_file, processInner, hf, hh, hi, hs, hcat, hmk],
                  rfl⟩
              | none =>
                have hres : (resolveDest c.ex ⟨cat, c.name⟩ c.fuel).isSome = true := by
                  apply resolveDest_isSome
                  obtain ⟨k, hk1, hk2, hk3⟩ := H
                  refine ⟨k, hk1, hk2, ?_⟩
                  have hd : destOf c = ⟨cat, c.name⟩ := by
                    simp [destOf, hcat]
                  rw [← hd]
                  exact hk3
                obtain ⟨r, hr⟩ := Option.isSome_iff_exists.mp hres
                cases hmv : c.mv with
                | ok u =>
                  exact ⟨(.moved, c.name, none),
                    by simp [_process_file, processInner, hf, hh, hi, hs, hcat,
                      hmk, _move_file_safely, hr, hmv], rfl⟩
                | error e =>
                  exact ⟨(.error, c.name, some "Move operation failed"),
                    by simp [_process_file, processInner, hf, hh, hi, hs, hcat,
                      hmk, _move_file_safely, hr, hmv], rfl⟩
  · intro m h
    unfold _process_file
    rw [h]

/-- Closed instance of C6: both conjuncts at concrete inputs (an ordinary
move and a folder-creation failure converted to an `Error` outcome). -/
theorem per_file_totality_witness :
    (∃ t : Outcome, _process_file ctxPhoto = some t ∧ t.2.1 = ctxPhoto.name) ∧
    _process_file ⟨"bad.pdf", true, some 0, some "mkdir failed", fun _ => false, .ok (), 1⟩ =
      some (.error, "bad.pdf", some "mkdir failed") := by
  constructor
  · exact (per_file_totality ctxPhoto ⟨1, by decide, by decide, by decide⟩).1
  · exact (per_file_totality
      ⟨"bad.pdf", true, some 0, some "mkdir failed", fun _ => false, .ok (), 1⟩
      ⟨1, by decide, by decide, by decide⟩).2 "mkdir failed" rfl

/-- C8 fails as stated: when `shutil.move` raises `OSError("Permission
denied")`, the outcome message is the fixed string `"Move operation
failed"`; the underlying message is not preserved in the outcome. -/
theorem move_error_message_counterexample :
    moveFailCtx.mv = Except.error "Permission denied" ∧
    _process_file moveFailCtx =
      some (.error, "report.pdf", some "Move operation failed") ∧
    (some "Move operation failed" : Option String) ≠ some "Permission denied" := by
  refine ⟨rfl, by decide, by decide⟩

/-- C8 (amended): when the underlying relocation fails with an OS failure,
the file's outcome is `Error` with the fixed message `"Move operation
failed"`, independent of the underlying message, which is only logged; the
aggregate report therefore pairs the filename with that fixed message. -/
theorem move_error_fixed_message (c : FileCtx) (m : String)
    (h1 : c.isFile = true) (h2 : hiddenName c.name = false)
    (h3 : inProgressExt c.name = false) (h4 : sizeTooBig c = false)
    (cat : String) (hcat : _get_file_category c.name = some cat)
    (hmk : c.mkdirFail = none)
    (hres : (resolveDest c.ex ⟨cat, c.name⟩ c.fuel).isSome = true)
    (hmv : c.mv = .error m) :
    _process_file c = some (.error, c.name, some "Move operation failed") := by
  obtain ⟨r, hr⟩ := Option.isSome_iff_exists.mp hres
  simp [_process_file, processInner, h1, h2, h3, h4, hcat, hmk,
    _move_file_safely, hr, hmv]

/-- Closed instance of the amended C8. -/
theorem move_error_fixed_message_witness :
    _process_file moveFailCtx =
      some (.error, "report.pdf", some "Move operation failed") :=
  move_error_fixed_message moveFailCtx "Permission denied" rfl (by decide)
    (by decide) (by decide) "documents" (by decide) rfl (by decide) rfl

/-! ### Lemmas about stem/suffix lengths -/

theorem splitIdx_bounds (n : String) (i : Nat) (h : splitIdx n = some i) :
    0 < i ∧ i + 1 < n.data.length := by
  unfold splitIdx at h
  cases hr : rfindDot n.data with
  | none => rw [hr] at h; simp at h
  | some j =>
    rw [hr] at h
    have h2 : (if 0 < j ∧ j + 1 < n.data.length then some j else none) = some i := h
    split at h2
    · next hc =>
      injection h2 with h3
      subst h3
      exact hc
    · next => simp at h2

theorem pyStem_suffix_length (n : String) :
    (pyStem n).length + (pySuffix n).length = n.length := by
  obtain ⟨cs⟩ := n
  unfold pyStem pySuffix
  cases h : splitIdx ⟨cs⟩ with
  | none => simp [String.length]
  | some i =>
    have hb := splitIdx_bounds ⟨cs⟩ i h
    simp [String.length] at hb ⊢
    omega

theorem candName_length (n : String) (k : Nat) :
    (candName n k).length = n.length + 1 + (toString k).length := by
  have h := pyStem_suffix_length n
  simp only [candName, newName, String.length_append]
  have h1 : ("_" : String).length = 1 := rfl
  rw [h1]
  omega

/-- C10: a moved file's outcome carries the original basename; aggregation
records that basename under a category re-derived by a second
`_get_file_category` call on the original path; and every collision
candidate basename differs from the original basename, so when a collision
suffix was applied the recorded filename differs from the on-disk name. -/
theorem moved_records_original_name (c : FileCtx) (r : RunResults) (k : Nat)
    (h1 : c.isFile = true) (h2 : hiddenName c.name = false)
    (h3 : inProgressExt c.name = false) (h4 : sizeTooBig c = false)
    (cat : String) (hcat : _get_file_category c.name = some cat)
    (hmk : c.mkdirFail = none) (hmv : c.mv = .ok ())
    (hres : (resolveDest c.ex ⟨cat, c.name⟩ c.fuel).isSome = true) :
    _process_file c = some (.moved, c.name, none) ∧
    (∀ r', aggregate [c] r = some r' →
      r'.moved = r.moved ++ [(_get_file_category c.name, c.name)]) ∧
    candName c.name k ≠ c.name := by
  obtain ⟨res, hr⟩ := Option.isSome_iff_exists.mp hres
  have hpf : _process_file c = some (.moved, c.name, none) := by
    simp [_process_file, processInner, h1, h2, h3, h4, hcat, hmk,
      _move_file_safely, hr, hmv]
  refine ⟨hpf, ?_, ?_⟩
  · intro r' h
    simp only [aggregate, hpf] at h
    have hcoll : collectOne c (.moved, c.name, none) r = r' := by
      simpa using h
    rw [← hcoll]
    simp [collectOne]
  · intro hEq
    have hlen := congrArg String.length hEq
    rw [candName_length] at hlen
    omega

/-- Closed instance of C10: with `images/photo.jpg` already present,
`photo.jpg` is still recorded under its original basename, which differs
from the on-disk candidate `photo_1.jpg`. -/
theorem moved_records_original_name_witness :
    _process_file ctxCollide = some (.moved, "photo.jpg", none) ∧
    candName "photo.jpg" 1 ≠ "photo.jpg" := by
  have h := moved_records_original_name ctxCollide initResults 1 rfl (by decide)
    (by decide) (by decide) "images" (by decide) rfl rfl (by decide)
  exact ⟨h.1, h.2.2⟩

/-! ### Lemmas about the counters -/

/-- Each collected outcome increments exactly one of the three tallies. -/
theorem collectOne_counts (c : FileCtx) (t : Outcome) (r : RunResults) :
    (collectOne c t r).movedCount + (collectOne c t r).skippedCount +
      (collectOne c t r).errorsCount
      = r.movedCount + r.skippedCount + r.errorsCount + 1 := by
  obtain ⟨st, fn, msg⟩ := t
  cases st <;> simp [collectOne] <;> omega

theorem aggregate_counts :
    ∀ (cs : List FileCtx) (r r' : RunResults), aggregate cs r = some r' →
      r'.movedCount + r'.skippedCount + r'.errorsCount
        = r.movedCount + r.skippedCount + r.errorsCount + cs.length := by
  intro cs
  induction cs with
  | nil =>
    intro r r' h
    simp [aggregate] at h
    subst h
    simp
  | cons c tl ih =>
    intro r r' h
    simp only [aggregate] at h
    cases hp : _process_file c with
    | none => rw [hp] at h; simp at h
    | some t =>
      rw [hp] at h
      simp only at h
      have hrec := ih (collectOne c t r) r' h
      rw [hrec, collectOne_counts]
      simp [List.length_cons]
      omega

/-- C2: in a run whose listing succeeded and was non-empty, the final
moved + skipped + error counters sum to the `total_files` counter, which
equals the number of files at listing time; and each processed file's
outcome increments exactly one of the three tallies by one. -/
theorem run_counts_balance (files completed : List FileCtx) (r : RunResults)
    (hne : files ≠ []) (hperm : completed.Perm files)
    (hrun : organize (.ok files) completed = some (.done r)) :
    (r.movedCount + r.skippedCount + r.errorsCount = r.totalFiles ∧
      r.totalFiles = files.length) ∧
    (∀ (c : FileCtx) (t : Outcome) (r0 : RunResults), _process_file c = some t →
      (collectOne c t r0).movedCount + (collectOne c t r0).skippedCount +
        (collectOne c t r0).errorsCount
        = r0.movedCount + r0.skippedCount + r0.errorsCount + 1) := by
  constructor
  · cases files with
    | nil => exact absurd rfl hne
    | cons f fs =>
      simp only [organize] at hrun
      cases ha : aggregate completed initResults with
      | none => rw [ha] at hrun; simp at hrun
      | some r0 =>
        rw [ha] at hrun
        simp only [Option.some.injEq, OrganizeResult.done.injEq] at hrun
        subst hrun
        have hc := aggregate_counts completed initResults r0 ha
        simp [initResults] at hc
        have hlen := hperm.length_eq
        constructor
        · simp [hc, hlen]
        · simp
  · intro c t r0 _
    exact collectOne_counts c t r0

/-- Closed instance of C2: a two-file run (one moved, one skipped) balances
its counters against the listing length. -/
theorem run_counts_balance_witness :
    runReport.movedCount + runReport.skippedCount + runReport.errorsCount
      = runReport.totalFiles ∧
    runReport.totalFiles = runFiles.length ∧
    (collectOne ctxPhoto (.moved, "photo.jpg", none) initResults).movedCount +
      (collectOne ctxPhoto (.moved, "photo.jpg", none) initResults).skippedCount +
      (collectOne ctxPhoto (.moved, "photo.jpg", none) initResults).errorsCount = 1 := by
  have h := run_counts_balance runFiles runFiles runReport
    (List.cons_ne_nil _ _) (List.Perm.refl _) (by decide)
  exact ⟨h.1.1, h.1.2, by
    have h2 := h.2 ctxPhoto (.moved, "photo.jpg", none) initResults (by decide)
    simpa [initResults] using h2⟩

/-- C7: a failed initial listing makes the whole run return the top-level
access error, independent of any per-file outcomes (no file is processed);
an empty listing returns the nothing-to-do result without touching any
worker outcomes. -/
theorem listing_failure_fast (e : String) (c1 c2 : List FileCtx) :
    organize (.error e) c1 =
      some (.fatal ("Cannot access downloads folder: " ++ e)) ∧
    organize (.error e) c1 = organize (.error e) c2 ∧
    organize (.ok []) c1 = some .nothingToDo ∧
    organize (.ok []) c1 = organize (.ok []) c2 := by
  exact ⟨rfl, rfl, rfl, rfl⟩

end DownloadsOrganizer
